import Mathlib

/-!
# Verification of the Google Drive upload bot (`src/main.py`)

Shallow embedding of the upload orchestrator of `main.py`
(`GoogleDriveUploadBot`): file discovery with extension filtering
(`get_files_to_upload`), destination folder resolution
(`create_drive_folder`), the idempotent per-file upload step
(`upload_file`) and the paced upload loop (`upload_with_breaks`).

The remote Drive service is modelled as an explicit state (`Drive`)
holding the folders and files visible to the queries of the bot; network
exceptions are modelled by a boolean failure oracle (one flag per
attempt, `True` meaning the lookup/transfer raised); mimetype guessing
(`mimetypes.guess_type`, an external collaborator) is an oracle
returning `Option String`.  `time.sleep` calls are recorded as a
`slept` flag on each per-file attempt record rather than executed.
-/

namespace UploadBot

/-- A file as discovered locally by `path.rglob`: the chain of
subdirectory components below the scanned root, and the base name
(`os.path.basename`). -/
structure LocalFile where
  dirs : List String
  base : String
deriving DecidableEq, Repr

/-- Embedding of `pathlib.PurePath.suffix`: find the last dot of the name; if it is
neither at position 0 nor at the last position, the suffix is the slice
from that dot (dot included); otherwise the suffix is empty. -/
def rfindDotAux : List Char → Option Nat
  | [] => none
  | c :: cs =>
    match rfindDotAux cs with
    | some i => some (i + 1)
    | none => if c = '.' then some 0 else none

/-- Python `Path(name).suffix` of a file name (the final path component). -/
def pathSuffix (s : String) : String :=
  match rfindDotAux s.toList with
  | none => ""
  | some i =>
    if 0 < i ∧ i < s.toList.length - 1 then String.mk (s.toList.drop i) else ""

/-- Python `str.lower()` on the characters of a string (extensions are
ASCII, for which per-character lowercasing matches Python). -/
def strLower (s : String) : String :=
  String.mk (s.toList.map Char.toLower)

/-- Line 71 of `main.py`: keep a file iff no extension filter is configured or
`file_path.suffix.lower() in file_extensions`.  Note that only the
suffix of the file is lowercased; the configured entries are matched verbatim. -/
def extKeep (exts : Option (List String)) (f : LocalFile) : Bool :=
  match exts with
  | none => true
  | some es => es.contains (strLower (pathSuffix f.base))

/-- Embedding of `get_files_to_upload` (`main.py:59-75`): raise `FileNotFoundError`
when the local folder is missing, otherwise the recursively discovered
regular files (`allFiles`, in `rglob` traversal order) filtered by the
extension allow-list. -/
def get_files_to_upload (dirExists : Bool) (allFiles : List LocalFile)
    (exts : Option (List String)) : Except String (List LocalFile) :=
  if dirExists = false then
    .error "Local folder not found!"
  else
    .ok (allFiles.filter (extKeep exts))

/-- A folder in the remote Drive state: name, parent identifier,
own identifier. -/
structure RFolder where
  name : String
  parent : String
  fid : String
deriving DecidableEq, Repr

/-- A file in the remote Drive state: name, parent folder identifier,
the MIME type it was uploaded with, and its identifier. -/
structure RFile where
  name : String
  parent : String
  mimeType : String
  fid : String
deriving DecidableEq, Repr

/-- The remote Drive as visible to the queries of the bot, plus a counter
used to mint fresh identifiers for created folders and files. -/
structure Drive where
  folders : List RFolder
  files : List RFile
  nextId : Nat
deriving DecidableEq, Repr

/-- A fresh opaque identifier minted by the remote service. -/
def freshId (d : Drive) : String := "gid" ++ Nat.repr d.nextId

/-- The folder query of `create_drive_folder` / `get_folder_id_by_name`
(`main.py:81`): children of `parent` whose name matches and whose
mimeType is the folder type. -/
def findFolders (d : Drive) (folderName parentId : String) : List RFolder :=
  d.folders.filter (fun f => f.name == folderName && f.parent == parentId)

/-- The file-existence query of `upload_file` (`main.py:152`): items
named `fileName` under `parentId` (no mimeType restriction in the
query; the model keeps files and folders separate, which coincides as
long as no folder lives inside an upload destination). -/
def findFilesIn (d : Drive) (fileName parentId : String) : List RFile :=
  d.files.filter (fun f => f.name == fileName && f.parent == parentId)

/-- Result of `create_drive_folder`: the returned folder id (`none` on
exception, `main.py:100-102`), the Drive state afterwards, and how many
`files().create` folder-creation calls were issued. -/
structure FolderResult where
  folderId : Option String
  drive : Drive
  createCalls : Nat
deriving DecidableEq, Repr

/-- Embedding of `create_drive_folder` (`main.py:77-102`): look the folder up under
`parentId`; if a match exists return the id of the first match (no create
call); otherwise create the folder and return the new id.  `fail`
models an exception inside the `try` block, turned into `None`. -/
def create_drive_folder (fail : Bool) (d : Drive)
    (folderName parentId : String) : FolderResult :=
  if fail then ⟨none, d, 0⟩
  else
    match findFolders d folderName parentId with
    | f :: _ => ⟨some f.fid, d, 0⟩
    | [] =>
      let fid := freshId d
      ⟨some fid,
       { d with folders := d.folders ++ [⟨folderName, parentId, fid⟩],
                nextId := d.nextId + 1 },
       1⟩

/-- The `mime_type` computation of `upload_file` (`main.py:161-163`):
`mimetypes.guess_type` result, defaulting to the generic binary type. -/
def fallbackMime (guessed : Option String) : String :=
  match guessed with
  | some m => m
  | none => "application/octet-stream"

/-- Result of one `upload_file` call: the boolean return value, whether
the bytes of the file were actually transferred (`files().create` with a
media body), and the Drive state afterwards. -/
structure UploadOutcome where
  ok : Bool
  transferred : Bool
  drive : Drive
deriving DecidableEq, Repr

/-- Embedding of `upload_file` (`main.py:146-185`): on exception (`fail`) return
`False`; if a file of the same base name already exists under the
destination folder, skip and return `True`; otherwise transfer the file
with the guessed (or fallback) MIME type and return `True`. -/
def upload_file (fail : Bool) (guessed : Option String) (f : LocalFile)
    (driveFolderId : String) (d : Drive) : UploadOutcome :=
  if fail then ⟨false, false, d⟩
  else
    match findFilesIn d f.base driveFolderId with
    | _ :: _ => ⟨true, false, d⟩
    | [] =>
      ⟨true, true,
       { d with files := d.files ++
                  [⟨f.base, driveFolderId, fallbackMime guessed, freshId d⟩],
                nextId := d.nextId + 1 }⟩

/-- Value of `self.batch_size` (`main.py:30`). -/
def botBatchSize : Nat := 10

/-- Value of `self.break_duration` in seconds (`main.py:31`). -/
def botBreakDuration : Nat := 180

/-- Observables of one iteration of the loop of `upload_with_breaks`
(`main.py:215-227`): the loop index `i`, the file attempted, the
`upload_file` return value, whether bytes were transferred, the value
of `uploaded_count` after the attempt, and whether
`time.sleep(break_duration)` ran after the attempt. -/
structure Attempt where
  idx : Nat
  file : LocalFile
  ok : Bool
  transferred : Bool
  countAfter : Nat
  slept : Bool
deriving DecidableEq, Repr

/-- Mutable state carried through the loop of `upload_with_breaks`:
the Drive, `self.uploaded_count`, the run counters
`successful_uploads` and `failed_uploads`, and the trace of attempts
made so far. -/
structure LoopState where
  drive : Drive
  uploadedCount : Nat
  successful : Nat
  failed : Nat
  trace : List Attempt
deriving DecidableEq, Repr

/-- The `for i, file_path in enumerate(files_to_upload)` loop of
`upload_with_breaks` (`main.py:215-227`): upload each file, update the
counters, and sleep when `uploaded_count % batch_size == 0` and
`i < total_files - 1`.  `failOf`/`guessOf` are the exception and
mimetype oracles, `total` is `total_files`. -/
def uploadLoop (failOf : LocalFile → Bool) (guessOf : LocalFile → Option String)
    (batchSize total : Nat) (folderId : String) :
    List LocalFile → Nat → LoopState → LoopState
  | [], _, st => st
  | f :: rest, i, st =>
    let r := upload_file (failOf f) (guessOf f) f folderId st.drive
    let count' := if r.ok then st.uploadedCount + 1 else st.uploadedCount
    let doSleep := count' % batchSize == 0 && decide (i < total - 1)
    uploadLoop failOf guessOf batchSize total folderId rest (i + 1)
      { drive := r.drive
        uploadedCount := count'
        successful := if r.ok then st.successful + 1 else st.successful
        failed := if r.ok then st.failed else st.failed + 1
        trace := st.trace ++ [⟨i, f, r.ok, r.transferred, count', doSleep⟩] }

/-- Python truthiness of an optional string argument
(`if drive_folder_id:` / `elif drive_folder_name:`). -/
def optTruthy : Option String → Bool
  | none => false
  | some s => !(s == "")

/-- Destination resolution of `upload_with_breaks` (`main.py:197-206`):
start from the root identifier; an explicitly supplied folder id wins;
otherwise a
supplied folder name is created-or-found; `none` as resulting target
means `create_drive_folder` failed and the run aborts. -/
def resolveTarget (folderFail : Bool)
    (driveFolderName driveFolderId : Option String) (d : Drive) :
    Option String × Drive × Nat :=
  if optTruthy driveFolderId then (driveFolderId, d, 0)
  else if optTruthy driveFolderName then
    let fr := create_drive_folder folderFail d (driveFolderName.getD "") "root"
    (fr.folderId, fr.drive, fr.createCalls)
  else (some "root", d, 0)

/-- Observable outcome of one `upload_with_breaks` call: final Drive,
`self.uploaded_count` afterwards, the run counters of the summary, the
attempt trace, the destination folder id used (if the loop was
reached), the number of folder-creation calls, and the error message
logged by a catch-all handler (if any). -/
structure RunOutput where
  drive : Drive
  uploadedCount : Nat
  successful : Nat
  failed : Nat
  trace : List Attempt
  target : Option String
  createCalls : Nat
  errMsg : Option String
deriving DecidableEq, Repr

/-- Embedding of `upload_with_breaks` (`main.py:187-247`): discover files (a missing
source directory raises, caught by the outer `except` and logged),
return early when nothing was discovered, resolve the destination
folder (aborting when creation fails), then run the paced loop.
`uploadedCount0` is the `uploaded_count` of the bot on entry; it persists
across calls on the same bot instance. -/
def upload_with_breaks (failOf : LocalFile → Bool)
    (guessOf : LocalFile → Option String) (folderFail : Bool)
    (batchSize uploadedCount0 : Nat) (dirExists : Bool)
    (allFiles : List LocalFile) (driveFolderName driveFolderId : Option String)
    (exts : Option (List String)) (d : Drive) : RunOutput :=
  match get_files_to_upload dirExists allFiles exts with
  | .error e =>
    { drive := d, uploadedCount := uploadedCount0, successful := 0,
      failed := 0, trace := [], target := none, createCalls := 0,
      errMsg := some ("An error occurred: " ++ e) }
  | .ok files =>
    if files.isEmpty then
      { drive := d, uploadedCount := uploadedCount0, successful := 0,
        failed := 0, trace := [], target := none, createCalls := 0,
        errMsg := none }
    else
      match resolveTarget folderFail driveFolderName driveFolderId d with
      | (none, d1, k) =>
        { drive := d1, uploadedCount := uploadedCount0, successful := 0,
          failed := 0, trace := [], target := none, createCalls := k,
          errMsg := some "Failed to create destination folder" }
      | (some t, d1, k) =>
        let fin := uploadLoop failOf guessOf batchSize files.length t files 0
          { drive := d1, uploadedCount := uploadedCount0, successful := 0,
            failed := 0, trace := [] }
        { drive := fin.drive, uploadedCount := fin.uploadedCount,
          successful := fin.successful, failed := fin.failed,
          trace := fin.trace, target := some t, createCalls := k,
          errMsg := none }

/-- Embedding of `_authenticate` (`main.py:33-57`), shallowly: valid token material
passes; an expired-but-refreshable token passes; otherwise a missing
client-secrets file raises `FileNotFoundError`, and an existing one
runs the interactive flow (modelled as succeeding). -/
def authenticate (tokenValid canRefresh credsFileExists : Bool) :
    Except String Unit :=
  if tokenValid then .ok ()
  else if canRefresh then .ok ()
  else if credsFileExists then .ok ()
  else .error "Credentials file not found!"

/-- Observable outcome of `main()` (`main.py:250-298`): the user-facing
error message printed (either the `print` call in `main` itself or an
error logged to the console handler by `upload_with_breaks`), and the
output of the upload run when the bot was constructed successfully. -/
structure MainOutput where
  printed : Option String
  run : Option RunOutput
deriving DecidableEq, Repr

/-- The upload path of `main()` (`main.py:263-298`): construct the bot
(authentication may raise, caught and printed, and then no upload call
is ever made), then call `upload_with_breaks`. -/
def mainRun (tokenValid canRefresh credsFileExists : Bool)
    (failOf : LocalFile → Bool) (guessOf : LocalFile → Option String)
    (folderFail : Bool) (dirExists : Bool) (allFiles : List LocalFile)
    (driveFolderName driveFolderId : Option String)
    (exts : Option (List String)) (d : Drive) : MainOutput :=
  match authenticate tokenValid canRefresh credsFileExists with
  | .error e => ⟨some ("Error: " ++ e), none⟩
  | .ok _ =>
    let out := upload_with_breaks failOf guessOf folderFail botBatchSize 0
      dirExists allFiles driveFolderName driveFolderId exts d
    ⟨out.errMsg, some out⟩

/-- Upload attempts made during a `main()` run. -/
def mainAttempts (m : MainOutput) : List Attempt :=
  match m.run with
  | none => []
  | some o => o.trace

/-- Number of failed attempts recorded in a trace. -/
def countFail (l : List Attempt) : Nat :=
  (l.filter (fun a => a.ok == false)).length

/-- Number of successful attempts recorded in a trace. -/
def countOk (l : List Attempt) : Nat :=
  (l.filter (fun a => a.ok)).length

/-- Pacing shape of one attempt record: the sleep happened exactly when
the persistent upload counter was a multiple of the batch size after
the attempt and more files remained. -/
def pacingOk (bs total : Nat) (a : Attempt) : Prop :=
  a.slept = true ↔ (a.countAfter % bs = 0 ∧ a.idx < total - 1)

/-- Two remote files do not collide: they differ in name or in parent. -/
def nameParentDistinct (x y : RFile) : Prop :=
  ¬(x.name = y.name ∧ x.parent = y.parent)

/-! ## Helper lemmas -/

/-- An exception makes `upload_file` return `False` and leave the Drive
untouched. -/
theorem upload_file_fail (g : Option String) (f : LocalFile) (t : String)
    (d : Drive) : upload_file true g f t d = ⟨false, false, d⟩ := rfl

/-- When a file of the same name already exists under the destination,
`upload_file` skips: it returns `True`, transfers nothing and leaves
the Drive untouched. -/
theorem upload_file_skip (g : Option String) (f : LocalFile) (t : String)
    (d : Drive) (h : findFilesIn d f.base t ≠ []) :
    upload_file false g f t d = ⟨true, false, d⟩ := by
  rcases hq : findFilesIn d f.base t with _ | ⟨x, xs⟩
  · exact absurd hq h
  · simp [upload_file, hq]

/-- When no file of the same name exists under the destination,
`upload_file` transfers and appends exactly one remote file. -/
theorem upload_file_new (g : Option String) (f : LocalFile) (t : String)
    (d : Drive) (h : findFilesIn d f.base t = []) :
    upload_file false g f t d =
      ⟨true, true,
       { d with files := d.files ++ [⟨f.base, t, fallbackMime g, freshId d⟩],
                nextId := d.nextId + 1 }⟩ := by
  simp [upload_file, h]

/-- The upload step never touches the folder list. -/
theorem upload_file_folders (fail : Bool) (g : Option String) (f : LocalFile)
    (t : String) (d : Drive) :
    (upload_file fail g f t d).drive.folders = d.folders := by
  unfold upload_file
  split
  · rfl
  · split <;> rfl

/-- The upload step only ever appends to the remote file list. -/
theorem upload_file_files_sub (fail : Bool) (g : Option String)
    (f : LocalFile) (t : String) (d : Drive) :
    ∃ ex, (upload_file fail g f t d).drive.files = d.files ++ ex := by
  unfold upload_file
  split
  · exact ⟨[], by simp⟩
  · split
    · exact ⟨[], by simp⟩
    · exact ⟨[⟨f.base, t, fallbackMime g, freshId d⟩], rfl⟩

/-- The folder query only looks at the folder list. -/
theorem findFolders_eq_of_folders {d d' : Drive} (h : d'.folders = d.folders)
    (n p : String) : findFolders d' n p = findFolders d n p := by
  simp [findFolders, h]

/-- A nonempty file query stays nonempty when the file list only
grows. -/
theorem findFilesIn_ne_nil_of_append {d d' : Drive} {ex : List RFile}
    (hf : d'.files = d.files ++ ex) {n p : String}
    (h : findFilesIn d n p ≠ []) : findFilesIn d' n p ≠ [] := by
  simp only [findFilesIn, hf, List.filter_append]
  intro hco
  exact h (List.append_eq_nil.mp hco).1

/-- The upload loop never touches the folder list. -/
theorem uploadLoop_folders (failOf : LocalFile → Bool)
    (guessOf : LocalFile → Option String) (bs total : Nat) (t : String) :
    ∀ (fs : List LocalFile) (i : Nat) (st : LoopState),
    (uploadLoop failOf guessOf bs total t fs i st).drive.folders =
      st.drive.folders := by
  intro fs
  induction fs with
  | nil => intro i st; rfl
  | cons f rest ih =>
    intro i st
    simp only [uploadLoop]
    rw [ih]
    exact upload_file_folders (failOf f) (guessOf f) f t st.drive

/-- The upload loop only ever appends to the remote file list. -/
theorem uploadLoop_files_sub (failOf : LocalFile → Bool)
    (guessOf : LocalFile → Option String) (bs total : Nat) (t : String) :
    ∀ (fs : List LocalFile) (i : Nat) (st : LoopState),
    ∃ ex, (uploadLoop failOf guessOf bs total t fs i st).drive.files =
      st.drive.files ++ ex := by
  intro fs
  induction fs with
  | nil => intro i st; exact ⟨[], by simp [uploadLoop]⟩
  | cons f rest ih =>
    intro i st
    simp only [uploadLoop]
    obtain ⟨ex1, h1⟩ := upload_file_files_sub (failOf f) (guessOf f) f t st.drive
    obtain ⟨ex2, h2⟩ := ih (i + 1)
      { drive := (upload_file (failOf f) (guessOf f) f t st.drive).drive
        uploadedCount := if (upload_file (failOf f) (guessOf f) f t st.drive).ok
          then st.uploadedCount + 1 else st.uploadedCount
        successful := if (upload_file (failOf f) (guessOf f) f t st.drive).ok
          then st.successful + 1 else st.successful
        failed := if (upload_file (failOf f) (guessOf f) f t st.drive).ok
          then st.failed else st.failed + 1
        trace := st.trace ++
          [⟨i, f, (upload_file (failOf f) (guessOf f) f t st.drive).ok,
            (upload_file (failOf f) (guessOf f) f t st.drive).transferred,
            if (upload_file (failOf f) (guessOf f) f t st.drive).ok
              then st.uploadedCount + 1 else st.uploadedCount,
            ((if (upload_file (failOf f) (guessOf f) f t st.drive).ok
              then st.uploadedCount + 1 else st.uploadedCount) % bs == 0 &&
              decide (i < total - 1))⟩] }
    refine ⟨ex1 ++ ex2, ?_⟩
    rw [h2]
    simp only [h1, List.append_assoc]

/-- The per-attempt files of the loop trace are exactly the files fed
into the loop, in order. -/
theorem uploadLoop_trace_map (failOf : LocalFile → Bool)
    (guessOf : LocalFile → Option String) (bs total : Nat) (t : String) :
    ∀ (fs : List LocalFile) (i : Nat) (st : LoopState),
    (uploadLoop failOf guessOf bs total t fs i st).trace.map Attempt.file =
      st.trace.map Attempt.file ++ fs := by
  intro fs
  induction fs with
  | nil => intro i st; simp [uploadLoop]
  | cons f rest ih =>
    intro i st
    simp only [uploadLoop]
    rw [ih]
    simp

/-- The loop makes one attempt per file fed into it. -/
theorem uploadLoop_trace_length (failOf : LocalFile → Bool)
    (guessOf : LocalFile → Option String) (bs total : Nat) (t : String) :
    ∀ (fs : List LocalFile) (i : Nat) (st : LoopState),
    (uploadLoop failOf guessOf bs total t fs i st).trace.length =
      st.trace.length + fs.length := by
  intro fs
  induction fs with
  | nil => intro i st; simp [uploadLoop]
  | cons f rest ih =>
    intro i st
    simp only [uploadLoop]
    rw [ih]
    simp
    omega



/-- The two run counters of the loop track exactly the failed and
successful attempts of the trace. -/
theorem uploadLoop_counts (failOf : LocalFile → Bool)
    (guessOf : LocalFile → Option String) (bs total : Nat) (t : String) :
    ∀ (fs : List LocalFile) (i : Nat) (st : LoopState),
    st.failed = countFail st.trace → st.successful = countOk st.trace →
    (uploadLoop failOf guessOf bs total t fs i st).failed =
      countFail (uploadLoop failOf guessOf bs total t fs i st).trace ∧
    (uploadLoop failOf guessOf bs total t fs i st).successful =
      countOk (uploadLoop failOf guessOf bs total t fs i st).trace := by
  intro fs
  induction fs with
  | nil => intro i st h1 h2; exact ⟨h1, h2⟩
  | cons f rest ih =>
    intro i st h1 h2
    simp only [uploadLoop]
    apply ih
    · cases hok : (upload_file (failOf f) (guessOf f) f t st.drive).ok <;>
        simp [countFail, List.filter_append, hok, h1]
    · cases hok : (upload_file (failOf f) (guessOf f) f t st.drive).ok <;>
        simp [countOk, List.filter_append, hok, h2]


/-- Every attempt record produced by the loop satisfies the pacing
shape. -/
theorem uploadLoop_pacing (failOf : LocalFile → Bool)
    (guessOf : LocalFile → Option String) (bs total : Nat) (t : String) :
    ∀ (fs : List LocalFile) (i : Nat) (st : LoopState),
    (∀ a ∈ st.trace, pacingOk bs total a) →
    ∀ a ∈ (uploadLoop failOf guessOf bs total t fs i st).trace,
      pacingOk bs total a := by
  intro fs
  induction fs with
  | nil => intro i st h; exact h
  | cons f rest ih =>
    intro i st h
    simp only [uploadLoop]
    apply ih
    intro a ha
    rcases List.mem_append.mp ha with h1 | h2
    · exact h a h1
    · have ha2 : a = ⟨i, f, (upload_file (failOf f) (guessOf f) f t st.drive).ok,
        (upload_file (failOf f) (guessOf f) f t st.drive).transferred,
        (if (upload_file (failOf f) (guessOf f) f t st.drive).ok
          then st.uploadedCount + 1 else st.uploadedCount),
        ((if (upload_file (failOf f) (guessOf f) f t st.drive).ok
          then st.uploadedCount + 1 else st.uploadedCount) % bs == 0 &&
          decide (i < total - 1))⟩ := by
        simpa using h2
      subst ha2
      simp [pacingOk, Bool.and_eq_true]

/-- After a loop run in which no attempt raised, every processed file
has a name match under the destination folder. -/
theorem uploadLoop_covers (guessOf : LocalFile → Option String)
    (bs total : Nat) (t : String) :
    ∀ (fs : List LocalFile) (i : Nat) (st : LoopState) (f : LocalFile),
    f ∈ fs →
    findFilesIn (uploadLoop (fun _ => false) guessOf bs total t fs i st).drive
      f.base t ≠ [] := by
  intro fs
  induction fs with
  | nil => intro i st f hf; exact absurd hf (List.not_mem_nil f)
  | cons g rest ih =>
    intro i st f hf
    rcases List.mem_cons.mp hf with rfl | hmem
    · simp only [uploadLoop]
      obtain ⟨ex, hex⟩ := uploadLoop_files_sub (fun _ => false) guessOf bs total t rest (i + 1) _
      apply findFilesIn_ne_nil_of_append hex
      rcases hq : findFilesIn st.drive f.base t with _ | ⟨x, xs⟩
      · simp only [upload_file_new (guessOf f) f t st.drive hq]
        simp [findFilesIn, List.filter_append]
      · simp only [upload_file_skip (guessOf f) f t st.drive (by rw [hq]; simp)]
        rw [hq]
        simp
    · simp only [uploadLoop]
      exact ih (i + 1) _ f hmem

/-- When every file fed into the loop already has a name match under
the destination, the loop changes nothing at the remote end and every
new attempt record is a no-transfer skip. -/
theorem uploadLoop_skips (guessOf : LocalFile → Option String)
    (bs total : Nat) (t : String) :
    ∀ (fs : List LocalFile) (i : Nat) (st : LoopState),
    (∀ f ∈ fs, findFilesIn st.drive f.base t ≠ []) →
    (uploadLoop (fun _ => false) guessOf bs total t fs i st).drive = st.drive ∧
    (∀ a ∈ (uploadLoop (fun _ => false) guessOf bs total t fs i st).trace,
      a ∈ st.trace ∨ a.transferred = false) := by
  intro fs
  induction fs with
  | nil => intro i st _; exact ⟨rfl, fun a ha => Or.inl ha⟩
  | cons g rest ih =>
    intro i st h
    have hg := h g (List.mem_cons_self g rest)
    simp only [uploadLoop,
      show ((fun (_ : LocalFile) => false) g) = false from rfl,
      upload_file_skip (guessOf g) g t st.drive hg]
    obtain ⟨hd, ht⟩ := ih (i + 1)
      { drive := st.drive
        uploadedCount := st.uploadedCount + 1
        successful := st.successful + 1
        failed := st.failed
        trace := st.trace ++
          [⟨i, g, true, false, st.uploadedCount + 1,
            ((st.uploadedCount + 1) % bs == 0 && decide (i < total - 1))⟩] }
      (fun f hf => h f (List.mem_cons_of_mem g hf))
    refine ⟨hd, ?_⟩
    intro a ha
    rcases ht a ha with h1 | h2
    · rcases List.mem_append.mp h1 with h3 | h4
      · exact Or.inl h3
      · right
        have : a = ⟨i, g, true, false, st.uploadedCount + 1,
            ((st.uploadedCount + 1) % bs == 0 && decide (i < total - 1))⟩ := by
          simpa using h4
        rw [this]
    · exact Or.inr h2

/-- Every remote file present after the loop was either there before or
was uploaded by the loop: parented directly under the destination
folder and named after the base name of one of the processed files. -/
theorem uploadLoop_parents (failOf : LocalFile → Bool)
    (guessOf : LocalFile → Option String) (bs total : Nat) (t : String) :
    ∀ (fs : List LocalFile) (i : Nat) (st : LoopState),
    ∀ rf ∈ (uploadLoop failOf guessOf bs total t fs i st).drive.files,
      rf ∈ st.drive.files ∨
        (rf.parent = t ∧ ∃ f ∈ fs, rf.name = f.base) := by
  intro fs
  induction fs with
  | nil => intro i st rf hrf; exact Or.inl hrf
  | cons g rest ih =>
    intro i st rf hrf
    simp only [uploadLoop] at hrf
    rcases ih (i + 1) _ rf hrf with h1 | ⟨hp, f, hf, hn⟩
    · cases hb : failOf g
      · rcases hq : findFilesIn st.drive g.base t with _ | ⟨x, xs⟩
        · simp only [hb, upload_file_new (guessOf g) g t st.drive hq] at h1
          rcases List.mem_append.mp h1 with h2 | h3
          · exact Or.inl h2
          · have h4 : rf = ⟨g.base, t, fallbackMime (guessOf g), freshId st.drive⟩ := by
              simpa using h3
            refine Or.inr ⟨?_, g, List.mem_cons_self g rest, ?_⟩ <;> rw [h4]
        · simp only [hb,
            upload_file_skip (guessOf g) g t st.drive (by rw [hq]; simp)] at h1
          exact Or.inl h1
      · simp only [hb, upload_file_fail (guessOf g) g t st.drive] at h1
        exact Or.inl h1
    · exact Or.inr ⟨hp, f, List.mem_cons_of_mem g hf, hn⟩


/-- The upload step preserves freedom from (name, parent) collisions:
a file is only added after the existence query came back empty. -/
theorem upload_file_pairwise (fail : Bool) (g : Option String)
    (f : LocalFile) (t : String) (d : Drive)
    (h : List.Pairwise nameParentDistinct d.files) :
    List.Pairwise nameParentDistinct (upload_file fail g f t d).drive.files := by
  unfold upload_file
  split
  · exact h
  · split
    · exact h
    · rename_i hq
      simp only
      rw [List.pairwise_append]
      refine ⟨h, List.pairwise_singleton _ _, ?_⟩
      intro a ha b hb
      have hb2 : b = ⟨f.base, t, fallbackMime g, freshId d⟩ := by simpa using hb
      subst hb2
      unfold findFilesIn at hq
      have h3 := List.filter_eq_nil_iff.mp hq a ha
      simp only [Bool.and_eq_true, beq_iff_eq, not_and] at h3
      intro hc
      rcases hc with ⟨hc1, hc2⟩
      exact h3 hc1 hc2

/-- The loop preserves freedom from (name, parent) collisions. -/
theorem uploadLoop_pairwise (failOf : LocalFile → Bool)
    (guessOf : LocalFile → Option String) (bs total : Nat) (t : String) :
    ∀ (fs : List LocalFile) (i : Nat) (st : LoopState),
    List.Pairwise nameParentDistinct st.drive.files →
    List.Pairwise nameParentDistinct
      (uploadLoop failOf guessOf bs total t fs i st).drive.files := by
  intro fs
  induction fs with
  | nil => intro i st h; exact h
  | cons g rest ih =>
    intro i st h
    simp only [uploadLoop]
    apply ih
    exact upload_file_pairwise (failOf g) (guessOf g) g t st.drive h

/-- Destination resolution with a truthy explicit folder id. -/
theorem resolveTarget_fid {fid : Option String} (h : optTruthy fid = true)
    (ff : Bool) (nm : Option String) (d : Drive) :
    resolveTarget ff nm fid d = (fid, d, 0) := by
  simp [resolveTarget, h]

/-- Destination resolution by folder name. -/
theorem resolveTarget_name {fid nm : Option String}
    (hf : optTruthy fid = false) (hn : optTruthy nm = true)
    (ff : Bool) (d : Drive) :
    resolveTarget ff nm fid d =
      ((create_drive_folder ff d (nm.getD "") "root").folderId,
       (create_drive_folder ff d (nm.getD "") "root").drive,
       (create_drive_folder ff d (nm.getD "") "root").createCalls) := by
  simp [resolveTarget, hf, hn]

/-- Destination resolution with neither a folder id nor a name. -/
theorem resolveTarget_root {fid nm : Option String}
    (hf : optTruthy fid = false) (hn : optTruthy nm = false)
    (ff : Bool) (d : Drive) :
    resolveTarget ff nm fid d = (some "root", d, 0) := by
  simp [resolveTarget, hf, hn]

/-- A folder lookup hit makes `create_drive_folder` return the id of
the first match, with no create call and no state change. -/
theorem create_drive_folder_found (d : Drive) (nm p : String) {g : RFolder}
    {gs : List RFolder} (h : findFolders d nm p = g :: gs) :
    create_drive_folder false d nm p = ⟨some g.fid, d, 0⟩ := by
  simp [create_drive_folder, h]

/-- A folder lookup miss makes `create_drive_folder` create the folder:
one create call, fresh id, folder appended. -/
theorem create_drive_folder_missing (d : Drive) (nm p : String)
    (h : findFolders d nm p = []) :
    create_drive_folder false d nm p =
      ⟨some (freshId d),
       { d with folders := d.folders ++ [⟨nm, p, freshId d⟩],
                nextId := d.nextId + 1 },
       1⟩ := by
  simp [create_drive_folder, h]

/-- Folder creation never touches remote files. -/
theorem create_drive_folder_files (ff : Bool) (d : Drive) (nm p : String) :
    (create_drive_folder ff d nm p).drive.files = d.files := by
  unfold create_drive_folder
  split
  · rfl
  · split <;> rfl

/-- Folder resolution by name is stable: repeating it from any Drive
that carries the folder list left by the first resolution returns the
same folder id, performs no create call and changes nothing. -/
theorem create_drive_folder_again (d d2 : Drive) (nm : String)
    (hfold : d2.folders = (create_drive_folder false d nm "root").drive.folders) :
    create_drive_folder false d2 nm "root" =
      ⟨(create_drive_folder false d nm "root").folderId, d2, 0⟩ := by
  rcases hq : findFolders d nm "root" with _ | ⟨g, gs⟩
  · rw [create_drive_folder_missing d nm "root" hq] at hfold ⊢
    have hfold2 : d2.folders = d.folders ++ [⟨nm, "root", freshId d⟩] := hfold
    have h2 : findFolders d2 nm "root" = [⟨nm, "root", freshId d⟩] := by
      unfold findFolders at hq ⊢
      rw [hfold2, List.filter_append, hq]
      simp
    rw [create_drive_folder_found d2 nm "root" h2]
  · rw [create_drive_folder_found d nm "root" hq] at hfold ⊢
    have hfold2 : d2.folders = d.folders := hfold
    have h2 : findFolders d2 nm "root" = g :: gs := by
      rw [findFolders_eq_of_folders hfold2, hq]
    rw [create_drive_folder_found d2 nm "root" h2]

/-- A missing source directory makes `upload_with_breaks` abort before
any upload attempt, logging the caught error. -/
theorem upload_with_breaks_dir_missing (failOf : LocalFile → Bool)
    (guessOf : LocalFile → Option String) (ff : Bool) (bs c0 : Nat)
    (allFiles : List LocalFile) (nm fid : Option String)
    (exts : Option (List String)) (d : Drive) :
    upload_with_breaks failOf guessOf ff bs c0 false allFiles nm fid exts d =
      ⟨d, c0, 0, 0, [], none, 0,
       some "An error occurred: Local folder not found!"⟩ := rfl

/-- With nothing discovered, `upload_with_breaks` returns without
resolving a folder or attempting anything. -/
theorem upload_with_breaks_no_files (failOf : LocalFile → Bool)
    (guessOf : LocalFile → Option String) (ff : Bool) (bs c0 : Nat)
    (allFiles : List LocalFile) (nm fid : Option String)
    (exts : Option (List String)) (d : Drive)
    (h : allFiles.filter (extKeep exts) = []) :
    upload_with_breaks failOf guessOf ff bs c0 true allFiles nm fid exts d =
      ⟨d, c0, 0, 0, [], none, 0, none⟩ := by
  unfold upload_with_breaks get_files_to_upload
  simp [h]

/-- With files discovered and the destination resolved, the output of
`upload_with_breaks` is the final state of the upload loop. -/
theorem upload_with_breaks_run (failOf : LocalFile → Bool)
    (guessOf : LocalFile → Option String) (ff : Bool) (bs c0 : Nat)
    (allFiles : List LocalFile) (nm fid : Option String)
    (exts : Option (List String)) (d : Drive) (t : String) (d1 : Drive)
    (k : Nat) (hne : allFiles.filter (extKeep exts) ≠ [])
    (hres : resolveTarget ff nm fid d = (some t, d1, k)) :
    upload_with_breaks failOf guessOf ff bs c0 true allFiles nm fid exts d =
      { drive := (uploadLoop failOf guessOf bs
          (allFiles.filter (extKeep exts)).length t
          (allFiles.filter (extKeep exts)) 0 ⟨d1, c0, 0, 0, []⟩).drive
        uploadedCount := (uploadLoop failOf guessOf bs
          (allFiles.filter (extKeep exts)).length t
          (allFiles.filter (extKeep exts)) 0 ⟨d1, c0, 0, 0, []⟩).uploadedCount
        successful := (uploadLoop failOf guessOf bs
          (allFiles.filter (extKeep exts)).length t
          (allFiles.filter (extKeep exts)) 0 ⟨d1, c0, 0, 0, []⟩).successful
        failed := (uploadLoop failOf guessOf bs
          (allFiles.filter (extKeep exts)).length t
          (allFiles.filter (extKeep exts)) 0 ⟨d1, c0, 0, 0, []⟩).failed
        trace := (uploadLoop failOf guessOf bs
          (allFiles.filter (extKeep exts)).length t
          (allFiles.filter (extKeep exts)) 0 ⟨d1, c0, 0, 0, []⟩).trace
        target := some t
        createCalls := k
        errMsg := none } := by
  unfold upload_with_breaks get_files_to_upload
  rw [hres]
  simp [List.isEmpty_iff, hne]

/-- With no exception during folder creation, destination resolution
always yields a target folder id. -/
theorem resolveTarget_false_some (nm fid : Option String) (d : Drive) :
    ∃ t d1 k, resolveTarget false nm fid d = (some t, d1, k) := by
  cases hf : optTruthy fid
  · cases hn : optTruthy nm
    · exact ⟨"root", d, 0, resolveTarget_root hf hn false d⟩
    · rcases hq : findFolders d (nm.getD "") "root" with _ | ⟨g, gs⟩
      · refine ⟨freshId d,
          { d with folders := d.folders ++ [⟨nm.getD "", "root", freshId d⟩],
                   nextId := d.nextId + 1 }, 1, ?_⟩
        rw [resolveTarget_name hf hn false d,
          create_drive_folder_missing _ _ _ hq]
      · refine ⟨g.fid, d, 0, ?_⟩
        rw [resolveTarget_name hf hn false d,
          create_drive_folder_found _ _ _ hq]
  · rcases fid with _ | sv
    · simp [optTruthy] at hf
    · exact ⟨sv, d, 0, resolveTarget_fid hf false nm d⟩

/-- A failed folder resolution aborts the run before any attempt. -/
theorem upload_with_breaks_resolve_fail (failOf : LocalFile → Bool)
    (guessOf : LocalFile → Option String) (ff : Bool) (bs c0 : Nat)
    (allFiles : List LocalFile) (nm fid : Option String)
    (exts : Option (List String)) (d : Drive) (d1 : Drive) (k : Nat)
    (hne : allFiles.filter (extKeep exts) ≠ [])
    (hres : resolveTarget ff nm fid d = (none, d1, k)) :
    upload_with_breaks failOf guessOf ff bs c0 true allFiles nm fid exts d =
      ⟨d1, c0, 0, 0, [], none, k,
       some "Failed to create destination folder"⟩ := by
  unfold upload_with_breaks get_files_to_upload
  rw [hres]
  simp [List.isEmpty_iff, hne]

/-- Files present after a full run with a resolved destination: either
they were already there after resolution, or they were uploaded by the
loop under the resolved target, named by the base name of a discovered
file. -/
theorem upload_with_breaks_parents (failOf : LocalFile → Bool)
    (guessOf : LocalFile → Option String) (ff : Bool) (bs c0 : Nat)
    (allFiles : List LocalFile) (nm fid : Option String)
    (exts : Option (List String)) (d : Drive) (t : String) (d1 : Drive)
    (k : Nat) (hne : allFiles.filter (extKeep exts) ≠ [])
    (hres : resolveTarget ff nm fid d = (some t, d1, k)) :
    ∀ rf ∈ (upload_with_breaks failOf guessOf ff bs c0 true allFiles nm fid
        exts d).drive.files,
      rf ∈ d1.files ∨
        (rf.parent = t ∧
          ∃ f ∈ allFiles.filter (extKeep exts), rf.name = f.base) := by
  intro rf hrf
  have hrun := upload_with_breaks_run failOf guessOf ff bs c0 allFiles nm
    fid exts d t d1 k hne hres
  have hfi : (upload_with_breaks failOf guessOf ff bs c0 true allFiles nm
      fid exts d).drive.files =
      (uploadLoop failOf guessOf bs (allFiles.filter (extKeep exts)).length
        t (allFiles.filter (extKeep exts)) 0
        ⟨d1, c0, 0, 0, []⟩).drive.files := by rw [hrun]
  rw [hfi] at hrf
  exact uploadLoop_parents failOf guessOf bs
    (allFiles.filter (extKeep exts)).length t
    (allFiles.filter (extKeep exts)) 0 ⟨d1, c0, 0, 0, []⟩ rf hrf


/-- Resolution is stable: re-resolving the same name/id input from any
Drive that carries the folder list left by a first successful
resolution yields the same target id, with no create call and no state
change. -/
theorem resolveTarget_stable (nm fid : Option String) (d d2 : Drive)
    (t : String) (d1 : Drive) (k : Nat)
    (hres : resolveTarget false nm fid d = (some t, d1, k))
    (hfold : d2.folders = d1.folders) :
    resolveTarget false nm fid d2 = (some t, d2, 0) := by
  cases hf : optTruthy fid
  · cases hn : optTruthy nm
    · rw [resolveTarget_root hf hn false d] at hres
      simp only [Prod.mk.injEq, Option.some.injEq] at hres
      obtain ⟨h1, h2, h3⟩ := hres
      rw [resolveTarget_root hf hn false d2, h1]
    · rw [resolveTarget_name hf hn false d] at hres
      simp only [Prod.mk.injEq] at hres
      obtain ⟨h1, h2, h3⟩ := hres
      rw [resolveTarget_name hf hn false d2]
      have hagain := create_drive_folder_again d d2 (nm.getD "")
        (by rw [hfold, ← h2])
      rw [hagain, h1]
  · rw [resolveTarget_fid hf false nm d] at hres
    simp only [Prod.mk.injEq] at hres
    obtain ⟨h1, h2, h3⟩ := hres
    rw [resolveTarget_fid hf false nm d2, h1]


/-! ## Claims -/

/-- C1, counterexample: with batch size 10, two files of which the
first upload raises, the run sleeps right after the first attempt even
though that attempt failed and the running successful-upload counter
was never incremented (it is still 0, a multiple of 10).  The trace
below records, per attempt, the success flag, the counter after the
attempt and whether a pacing sleep followed: the sleep follows the
failed attempt, refuting "a pacing sleep occurs after every 10th
increment of the running successful-upload counter and only then". -/
theorem claim1_pacing_counterexample :
    (upload_with_breaks (fun f => f.base == "bad.bin") (fun _ => none)
        false botBatchSize 0 true
        [⟨[], "bad.bin"⟩, ⟨[], "good.bin"⟩] none none none
        ⟨[], [], 0⟩).trace.map (fun a => (a.ok, a.countAfter, a.slept)) =
      [(false, 0, true), (true, 1, false)] := by
  decide

/-- C1, amended: during a run of `upload_with_breaks` with batch size
10 and break duration 180 seconds, the pacing sleep occurs after an
attempt exactly when the running successful-upload counter is a
multiple of 10 after that attempt (whether or not that attempt
incremented it) and more files remain; in particular no pause ever
occurs after the final file, regardless of the counter value.  When
every attempt succeeds and the counter starts at 0 this coincides with
sleeping after every 10th successful upload. -/
theorem claim1_pacing_amended (failOf : LocalFile → Bool)
    (guessOf : LocalFile → Option String) (ff : Bool) (c0 : Nat)
    (dirExists : Bool) (allFiles : List LocalFile) (nm fid : Option String)
    (exts : Option (List String)) (d : Drive) (out : RunOutput)
    (hout : out = upload_with_breaks failOf guessOf ff botBatchSize c0
      dirExists allFiles nm fid exts d) :
    botBreakDuration = 180 ∧
    ∀ a ∈ out.trace,
      (a.slept = true ↔
        (a.countAfter % botBatchSize = 0 ∧ a.idx + 1 < out.trace.length)) ∧
      (a.idx + 1 = out.trace.length → a.slept = false) := by
  subst hout
  refine ⟨rfl, ?_⟩
  cases dirExists
  · rw [upload_with_breaks_dir_missing]
    simp
  · rcases hl : allFiles.filter (extKeep exts) with _ | ⟨a0, as⟩
    · rw [upload_with_breaks_no_files failOf guessOf ff botBatchSize c0
        allFiles nm fid exts d hl]
      simp
    · have hne : allFiles.filter (extKeep exts) ≠ [] := by rw [hl]; simp
      rcases hres : resolveTarget ff nm fid d with ⟨tgt, d1, k⟩
      cases tgt with
      | none =>
        rw [upload_with_breaks_resolve_fail failOf guessOf ff botBatchSize c0
          allFiles nm fid exts d d1 k hne hres]
        simp
      | some t =>
        have hrun := upload_with_breaks_run failOf guessOf ff botBatchSize c0
          allFiles nm fid exts d t d1 k hne hres
        have htr : (upload_with_breaks failOf guessOf ff botBatchSize c0 true
            allFiles nm fid exts d).trace =
            (uploadLoop failOf guessOf botBatchSize
              (allFiles.filter (extKeep exts)).length t
              (allFiles.filter (extKeep exts)) 0 ⟨d1, c0, 0, 0, []⟩).trace := by
          rw [hrun]
        rw [htr]
        have hlen : (uploadLoop failOf guessOf botBatchSize
            (allFiles.filter (extKeep exts)).length t
            (allFiles.filter (extKeep exts)) 0 ⟨d1, c0, 0, 0, []⟩).trace.length =
            (allFiles.filter (extKeep exts)).length := by
          rw [uploadLoop_trace_length]
          simp
        intro a ha
        have hp := uploadLoop_pacing failOf guessOf botBatchSize
          (allFiles.filter (extKeep exts)).length t
          (allFiles.filter (extKeep exts)) 0 ⟨d1, c0, 0, 0, []⟩
          (by intro a2 ha2; exact absurd ha2 (List.not_mem_nil a2)) a ha
        unfold pacingOk at hp
        rw [hlen]
        have hpos : 0 < (allFiles.filter (extKeep exts)).length := by
          rw [hl]; simp
        constructor
        · rw [hp]
          constructor
          · rintro ⟨h1, h2⟩; exact ⟨h1, by omega⟩
          · rintro ⟨h1, h2⟩; exact ⟨h1, by omega⟩
        · intro hfin
          rcases hsl : a.slept with _ | _
          · rfl
          · have := hp.mp hsl
            omega

/-- C1 witness: a concrete three-file run with batch size 10 in which
the middle attempt record is subject to the amended pacing property. -/
theorem claim1_pacing_witness :
    botBreakDuration = 180 ∧
    ((upload_with_breaks (fun _ => false) (fun _ => none) false botBatchSize 0
        true [⟨[], "a.bin"⟩, ⟨[], "b.bin"⟩] none none none
        ⟨[], [], 0⟩).trace.map (fun a => a.slept) = [false, false]) := by
  have h := claim1_pacing_amended (fun _ => false) (fun _ => none) false 0
    true [⟨[], "a.bin"⟩, ⟨[], "b.bin"⟩] none none none ⟨[], [], 0⟩ _ rfl
  refine ⟨h.1, ?_⟩
  decide

/-- C2: when a file with the same name already exists directly under
the destination folder, `upload_file` performs no transfer, the remote
store gains no new file (the Drive is unchanged), and the attempt is
counted as a success (the call returns `True`, which the caller counts
into `successful_uploads`). -/
theorem claim2_skip_existing (g : Option String) (f : LocalFile)
    (t : String) (d : Drive) (h : findFilesIn d f.base t ≠ []) :
    (upload_file false g f t d).ok = true ∧
    (upload_file false g f t d).transferred = false ∧
    (upload_file false g f t d).drive = d := by
  rw [upload_file_skip g f t d h]
  exact ⟨rfl, rfl, rfl⟩

/-- C2 witness: a Drive already holding `a.txt` under `root`, then
uploading a local `a.txt` to `root`. -/
theorem claim2_skip_existing_witness :
    (findFilesIn ⟨[], [⟨"a.txt", "root", "text/plain", "gid0"⟩], 1⟩
      (LocalFile.mk [] "a.txt").base "root" ≠ []) ∧
    ((upload_file false none ⟨[], "a.txt"⟩ "root"
        ⟨[], [⟨"a.txt", "root", "text/plain", "gid0"⟩], 1⟩).ok = true ∧
     (upload_file false none ⟨[], "a.txt"⟩ "root"
        ⟨[], [⟨"a.txt", "root", "text/plain", "gid0"⟩], 1⟩).transferred = false ∧
     (upload_file false none ⟨[], "a.txt"⟩ "root"
        ⟨[], [⟨"a.txt", "root", "text/plain", "gid0"⟩], 1⟩).drive =
       ⟨[], [⟨"a.txt", "root", "text/plain", "gid0"⟩], 1⟩) :=
  ⟨by decide,
   claim2_skip_existing none ⟨[], "a.txt"⟩ "root"
     ⟨[], [⟨"a.txt", "root", "text/plain", "gid0"⟩], 1⟩ (by decide)⟩

/-- C5, counterexample: with the allow-list `[".TXT"]` the file
`a.TXT` has extension `.TXT`, which is literally (hence also
case-insensitively) a member of the configured set, yet discovery
excludes it: the code lowercases the extension of the file before the
verbatim membership test, so an upper-case set entry never matches.
This refutes "the file is passed to the upload step if and only if its
extension is in the set, with membership tested case-insensitively". -/
theorem claim5_filter_counterexample :
    get_files_to_upload true [⟨[], "a.TXT"⟩] (some [".TXT"]) = .ok [] ∧
    pathSuffix "a.TXT" = ".TXT" ∧
    [".TXT"].contains (pathSuffix "a.TXT") = true := by
  exact ⟨by rfl, by decide, by decide⟩

/-- C5, amended: with an extension allow-list configured, a discovered
file is passed to the upload step iff its lowercased extension
(leading dot included) is literally a member of the configured list:
case differences in the extension of the local file are ignored, but
the configured entries are matched verbatim, so entries must be given
in lower case to ever match. -/
theorem claim5_filter_amended (allFiles : List LocalFile)
    (es : List String) (f : LocalFile) :
    get_files_to_upload true allFiles (some es) =
      .ok (allFiles.filter (extKeep (some es))) ∧
    (f ∈ allFiles.filter (extKeep (some es)) ↔
      (f ∈ allFiles ∧ es.contains (strLower (pathSuffix f.base)) = true)) := by
  refine ⟨rfl, ?_⟩
  rw [List.mem_filter]
  simp [extKeep]

/-- C5 witness: the allow-list `[".txt", ".pdf"]` keeps `a.TXT` (its
lowercased extension is `.txt`). -/
theorem claim5_filter_amended_witness :
    get_files_to_upload true [⟨[], "a.TXT"⟩] (some [".txt", ".pdf"]) =
      .ok ([⟨[], "a.TXT"⟩].filter (extKeep (some [".txt", ".pdf"]))) ∧
    ((⟨[], "a.TXT"⟩ : LocalFile) ∈
        ([⟨[], "a.TXT"⟩] : List LocalFile).filter (extKeep (some [".txt", ".pdf"])) ↔
      ((⟨[], "a.TXT"⟩ : LocalFile) ∈ ([⟨[], "a.TXT"⟩] : List LocalFile) ∧
        [".txt", ".pdf"].contains
          (strLower (pathSuffix (LocalFile.mk [] "a.TXT").base)) = true)) :=
  claim5_filter_amended [⟨[], "a.TXT"⟩] [".txt", ".pdf"] ⟨[], "a.TXT"⟩

/-- C7: setup errors abort the run before any upload attempt and are
surfaced through a printed message.  First conjunct: with no valid
token, no refreshable token and a missing client-secrets file, `main`
prints the credentials error and never calls `upload_with_breaks`.
Second conjunct: with a missing local source directory, whatever the
authentication outcome, zero upload attempts are made and an error
message is printed. -/
theorem claim7_setup_errors :
    (∀ (failOf : LocalFile → Bool) (guessOf : LocalFile → Option String)
      (ff dirExists : Bool) (allFiles : List LocalFile)
      (nm fid : Option String) (exts : Option (List String)) (d : Drive),
      mainRun false false false failOf guessOf ff dirExists allFiles nm fid
          exts d =
        ⟨some "Error: Credentials file not found!", none⟩) ∧
    (∀ (tv cr ce : Bool) (failOf : LocalFile → Bool)
      (guessOf : LocalFile → Option String) (ff : Bool)
      (allFiles : List LocalFile) (nm fid : Option String)
      (exts : Option (List String)) (d : Drive),
      mainAttempts (mainRun tv cr ce failOf guessOf ff false allFiles nm fid
          exts d) = [] ∧
      (mainRun tv cr ce failOf guessOf ff false allFiles nm fid
          exts d).printed ≠ none) := by
  constructor
  · intro failOf guessOf ff dirExists allFiles nm fid exts d
    rfl
  · intro tv cr ce failOf guessOf ff allFiles nm fid exts d
    rcases hauth : authenticate tv cr ce with e | u
    · unfold mainRun mainAttempts
      rw [hauth]
      simp
    · unfold mainRun mainAttempts
      rw [hauth]
      rw [upload_with_breaks_dir_missing failOf guessOf ff botBatchSize 0
        allFiles nm fid exts d]
      simp

/-- C7 witness: both conjuncts at concrete inputs. -/
theorem claim7_setup_errors_witness :
    mainRun false false false (fun _ => false) (fun _ => none) false true
        [⟨[], "a.txt"⟩] none none none ⟨[], [], 0⟩ =
      ⟨some "Error: Credentials file not found!", none⟩ ∧
    mainAttempts (mainRun true false false (fun _ => false) (fun _ => none)
        false false [⟨[], "a.txt"⟩] none none none ⟨[], [], 0⟩) = [] :=
  ⟨claim7_setup_errors.1 (fun _ => false) (fun _ => none) false true
     [⟨[], "a.txt"⟩] none none none ⟨[], [], 0⟩,
   (claim7_setup_errors.2 true false false (fun _ => false) (fun _ => none)
     false [⟨[], "a.txt"⟩] none none none ⟨[], [], 0⟩).1⟩

/-- C8: a file that is actually transferred is stored with the MIME
type guessed from its name by the inference oracle, and with the
generic binary type `application/octet-stream` exactly when the oracle
yields no type. -/
theorem claim8_mime_fallback (g : Option String) (f : LocalFile)
    (t : String) (d : Drive) (h : findFilesIn d f.base t = []) :
    (upload_file false g f t d).transferred = true ∧
    (upload_file false g f t d).drive.files =
      d.files ++ [⟨f.base, t, fallbackMime g, freshId d⟩] ∧
    fallbackMime none = "application/octet-stream" ∧
    (∀ m, fallbackMime (some m) = m) := by
  rw [upload_file_new g f t d h]
  exact ⟨rfl, rfl, rfl, fun m => rfl⟩

/-- C8 witness: uploading `x.bin` to an empty Drive with no guessed
type stores it as `application/octet-stream`. -/
theorem claim8_mime_fallback_witness :
    (upload_file false none ⟨[], "x.bin"⟩ "root" ⟨[], [], 0⟩).transferred =
      true ∧
    (upload_file false none ⟨[], "x.bin"⟩ "root" ⟨[], [], 0⟩).drive.files =
      [] ++ [⟨(LocalFile.mk [] "x.bin").base, "root", fallbackMime none,
        freshId ⟨[], [], 0⟩⟩] ∧
    fallbackMime none = "application/octet-stream" ∧
    (∀ m, fallbackMime (some m) = m) :=
  claim8_mime_fallback none ⟨[], "x.bin"⟩ "root" ⟨[], [], 0⟩ (by decide)

/-- C9: with neither a destination folder name nor an explicit folder
identifier, the run targets the remote hierarchy root: the destination
folder id is the literal `root`, and every remote file present after
the run was either there before or sits directly under `root`. -/
theorem claim9_default_root (failOf : LocalFile → Bool)
    (guessOf : LocalFile → Option String) (ff : Bool) (bs c0 : Nat)
    (allFiles : List LocalFile) (exts : Option (List String)) (d : Drive)
    (out : RunOutput)
    (hout : out = upload_with_breaks failOf guessOf ff bs c0 true allFiles
      none none exts d) :
    (allFiles.filter (extKeep exts) ≠ [] → out.target = some "root") ∧
    (∀ rf ∈ out.drive.files, rf ∈ d.files ∨ rf.parent = "root") := by
  subst hout
  have hres : resolveTarget ff none none d = (some "root", d, 0) :=
    @resolveTarget_root none none rfl rfl ff d
  rcases hl : allFiles.filter (extKeep exts) with _ | ⟨a0, as⟩
  · rw [upload_with_breaks_no_files failOf guessOf ff bs c0 allFiles none
      none exts d hl]
    exact ⟨fun hne => absurd rfl hne, fun rf hrf => Or.inl hrf⟩
  · have hne : allFiles.filter (extKeep exts) ≠ [] := by rw [hl]; simp
    have hrun := upload_with_breaks_run failOf guessOf ff bs c0 allFiles
      none none exts d "root" d 0 hne hres
    have htg : (upload_with_breaks failOf guessOf ff bs c0 true allFiles
        none none exts d).target = some "root" := by rw [hrun]
    have hfi : (upload_with_breaks failOf guessOf ff bs c0 true allFiles
        none none exts d).drive.files =
        (uploadLoop failOf guessOf bs (allFiles.filter (extKeep exts)).length
          "root" (allFiles.filter (extKeep exts)) 0
          ⟨d, c0, 0, 0, []⟩).drive.files := by rw [hrun]
    refine ⟨fun _ => htg, ?_⟩
    intro rf hrf
    rw [hfi] at hrf
    rcases uploadLoop_parents failOf guessOf bs
        (allFiles.filter (extKeep exts)).length "root"
        (allFiles.filter (extKeep exts)) 0 ⟨d, c0, 0, 0, []⟩ rf hrf with
      h1 | ⟨hp, _⟩
    · exact Or.inl h1
    · exact Or.inr hp

/-- C9 witness: a one-file run with no name and no id uploads under
`root`. -/
theorem claim9_default_root_witness :
    ([(⟨[], "a.bin"⟩ : LocalFile)].filter (extKeep none) ≠ [] →
      (upload_with_breaks (fun _ => false) (fun _ => none) false 10 0 true
        [⟨[], "a.bin"⟩] none none none ⟨[], [], 0⟩).target = some "root") ∧
    (∀ rf ∈ (upload_with_breaks (fun _ => false) (fun _ => none) false 10 0
        true [⟨[], "a.bin"⟩] none none none ⟨[], [], 0⟩).drive.files,
      rf ∈ (Drive.mk [] [] 0).files ∨ rf.parent = "root") :=
  claim9_default_root (fun _ => false) (fun _ => none) false 10 0
    [⟨[], "a.bin"⟩] none ⟨[], [], 0⟩ _ rfl

/-- C4: with a reachable destination, every discovered file is
attempted exactly once and in order, whatever the per-file failure
pattern (a raising attempt never aborts the loop), and the final
summary counters equal exactly the number of individually failed and
successful attempts. -/
theorem claim4_failure_isolation (failOf : LocalFile → Bool)
    (guessOf : LocalFile → Option String) (bs c0 : Nat)
    (allFiles : List LocalFile) (nm fid : Option String)
    (exts : Option (List String)) (d : Drive) (out : RunOutput)
    (hout : out = upload_with_breaks failOf guessOf false bs c0 true
      allFiles nm fid exts d) :
    out.trace.map Attempt.file = allFiles.filter (extKeep exts) ∧
    out.failed = countFail out.trace ∧
    out.successful = countOk out.trace := by
  subst hout
  rcases hl : allFiles.filter (extKeep exts) with _ | ⟨a0, as⟩
  · rw [upload_with_breaks_no_files failOf guessOf false bs c0 allFiles nm
      fid exts d hl]
    simp [countFail, countOk]
  · have hne : allFiles.filter (extKeep exts) ≠ [] := by rw [hl]; simp
    obtain ⟨t, d1, k, hres⟩ := resolveTarget_false_some nm fid d
    have hrun := upload_with_breaks_run failOf guessOf false bs c0 allFiles
      nm fid exts d t d1 k hne hres
    have htr : (upload_with_breaks failOf guessOf false bs c0 true allFiles
        nm fid exts d).trace =
        (uploadLoop failOf guessOf bs (allFiles.filter (extKeep exts)).length
          t (allFiles.filter (extKeep exts)) 0
          ⟨d1, c0, 0, 0, []⟩).trace := by rw [hrun]
    have hfl : (upload_with_breaks failOf guessOf false bs c0 true allFiles
        nm fid exts d).failed =
        (uploadLoop failOf guessOf bs (allFiles.filter (extKeep exts)).length
          t (allFiles.filter (extKeep exts)) 0
          ⟨d1, c0, 0, 0, []⟩).failed := by rw [hrun]
    have hsu : (upload_with_breaks failOf guessOf false bs c0 true allFiles
        nm fid exts d).successful =
        (uploadLoop failOf guessOf bs (allFiles.filter (extKeep exts)).length
          t (allFiles.filter (extKeep exts)) 0
          ⟨d1, c0, 0, 0, []⟩).successful := by rw [hrun]
    rw [htr, hfl, hsu, ← hl]
    obtain ⟨hcf, hco⟩ := uploadLoop_counts failOf guessOf bs
      (allFiles.filter (extKeep exts)).length t
      (allFiles.filter (extKeep exts)) 0 ⟨d1, c0, 0, 0, []⟩ rfl rfl
    refine ⟨?_, hcf, hco⟩
    rw [uploadLoop_trace_map]
    simp

/-- C4 witness: a three-file run in which the middle upload raises:
all three files are attempted and the summary counts one failure and
two successes. -/
theorem claim4_failure_isolation_witness :
    (upload_with_breaks (fun f => f.base == "bad.bin") (fun _ => none)
        false 10 0 true
        [⟨[], "a.bin"⟩, ⟨[], "bad.bin"⟩, ⟨[], "c.bin"⟩] none none none
        ⟨[], [], 0⟩).trace.map Attempt.file =
      [⟨[], "a.bin"⟩, ⟨[], "bad.bin"⟩, ⟨[], "c.bin"⟩].filter (extKeep none) ∧
    (upload_with_breaks (fun f => f.base == "bad.bin") (fun _ => none)
        false 10 0 true
        [⟨[], "a.bin"⟩, ⟨[], "bad.bin"⟩, ⟨[], "c.bin"⟩] none none none
        ⟨[], [], 0⟩).failed =
      countFail (upload_with_breaks (fun f => f.base == "bad.bin")
        (fun _ => none) false 10 0 true
        [⟨[], "a.bin"⟩, ⟨[], "bad.bin"⟩, ⟨[], "c.bin"⟩] none none none
        ⟨[], [], 0⟩).trace ∧
    (upload_with_breaks (fun f => f.base == "bad.bin") (fun _ => none)
        false 10 0 true
        [⟨[], "a.bin"⟩, ⟨[], "bad.bin"⟩, ⟨[], "c.bin"⟩] none none none
        ⟨[], [], 0⟩).successful =
      countOk (upload_with_breaks (fun f => f.base == "bad.bin")
        (fun _ => none) false 10 0 true
        [⟨[], "a.bin"⟩, ⟨[], "bad.bin"⟩, ⟨[], "c.bin"⟩] none none none
        ⟨[], [], 0⟩).trace :=
  claim4_failure_isolation (fun f => f.base == "bad.bin") (fun _ => none)
    10 0 [⟨[], "a.bin"⟩, ⟨[], "bad.bin"⟩, ⟨[], "c.bin"⟩] none none none
    ⟨[], [], 0⟩ _ rfl

/-- C6: resolving the destination by name.  When no folder of that name
exists under the remote root, exactly one create-folder call is made,
the run targets the freshly minted identifier and every file uploaded
by the run is parented under it.  When such a folder already exists,
zero create-folder calls are made and the identifier of the (first)
existing match is used. -/
theorem claim6_folder_resolution (failOf : LocalFile → Bool)
    (guessOf : LocalFile → Option String) (bs c0 : Nat)
    (allFiles : List LocalFile) (exts : Option (List String)) (d : Drive)
    (nm : String) (hnm : nm ≠ "")
    (hne : allFiles.filter (extKeep exts) ≠ []) (out : RunOutput)
    (hout : out = upload_with_breaks failOf guessOf false bs c0 true
      allFiles (some nm) none exts d) :
    (findFolders d nm "root" = [] →
      out.createCalls = 1 ∧ out.target = some (freshId d) ∧
      (∀ rf ∈ out.drive.files, rf ∈ d.files ∨ rf.parent = freshId d)) ∧
    (∀ (g : RFolder) (gs : List RFolder), findFolders d nm "root" = g :: gs →
      out.createCalls = 0 ∧ out.target = some g.fid ∧
      (∀ rf ∈ out.drive.files, rf ∈ d.files ∨ rf.parent = g.fid)) := by
  subst hout
  have htru : optTruthy (some nm) = true := by
    simp [optTruthy, hnm]
  constructor
  · intro hq
    have hres : resolveTarget false (some nm) none d =
        (some (freshId d),
         Drive.mk (d.folders ++ [⟨nm, "root", freshId d⟩]) d.files
           (d.nextId + 1), 1) := by
      rw [@resolveTarget_name none (some nm) rfl htru false d]
      simp only [Option.getD_some]
      rw [create_drive_folder_missing d nm "root" hq]
    have hrun := upload_with_breaks_run failOf guessOf false bs c0 allFiles
      (some nm) none exts d (freshId d)
      (Drive.mk (d.folders ++ [⟨nm, "root", freshId d⟩]) d.files
        (d.nextId + 1)) 1 hne hres
    refine ⟨by rw [hrun], by rw [hrun], ?_⟩
    intro rf hrf
    rcases upload_with_breaks_parents failOf guessOf false bs c0 allFiles
        (some nm) none exts d (freshId d)
        (Drive.mk (d.folders ++ [⟨nm, "root", freshId d⟩]) d.files
          (d.nextId + 1)) 1 hne hres rf hrf with h1 | ⟨hp, _⟩
    · exact Or.inl h1
    · exact Or.inr hp
  · intro g gs hq
    have hres : resolveTarget false (some nm) none d = (some g.fid, d, 0) := by
      rw [@resolveTarget_name none (some nm) rfl htru false d]
      simp only [Option.getD_some]
      rw [create_drive_folder_found d nm "root" hq]
    have hrun := upload_with_breaks_run failOf guessOf false bs c0 allFiles
      (some nm) none exts d g.fid d 0 hne hres
    refine ⟨by rw [hrun], by rw [hrun], ?_⟩
    intro rf hrf
    rcases upload_with_breaks_parents failOf guessOf false bs c0 allFiles
        (some nm) none exts d g.fid d 0 hne hres rf hrf with h1 | ⟨hp, _⟩
    · exact Or.inl h1
    · exact Or.inr hp

/-- C6 witness: uploading one file with destination name `uploads`
into an empty Drive (no folder exists, so the miss branch applies). -/
theorem claim6_folder_resolution_witness :
    ("uploads" ≠ "" ∧
      ([(⟨[], "a.bin"⟩ : LocalFile)].filter (extKeep none) ≠ []) ∧
      findFolders ⟨[], [], 0⟩ "uploads" "root" = []) ∧
    ((upload_with_breaks (fun _ => false) (fun _ => none) false 10 0 true
        [⟨[], "a.bin"⟩] (some "uploads") none none ⟨[], [], 0⟩).createCalls =
      1 ∧
     (upload_with_breaks (fun _ => false) (fun _ => none) false 10 0 true
        [⟨[], "a.bin"⟩] (some "uploads") none none ⟨[], [], 0⟩).target =
      some (freshId ⟨[], [], 0⟩) ∧
     (∀ rf ∈ (upload_with_breaks (fun _ => false) (fun _ => none) false 10 0
        true [⟨[], "a.bin"⟩] (some "uploads") none none
        ⟨[], [], 0⟩).drive.files,
       rf ∈ (Drive.mk [] [] 0).files ∨ rf.parent = freshId ⟨[], [], 0⟩)) :=
  ⟨⟨by decide, by decide, by decide⟩,
   (claim6_folder_resolution (fun _ => false) (fun _ => none) 10 0
     [⟨[], "a.bin"⟩] none ⟨[], [], 0⟩ "uploads" (by decide) (by decide)
     _ rfl).1 (by decide)⟩

/-- C10: discovery is recursive, but uploads are flat.  After a run
against an explicit destination id, the remote folder hierarchy is
unchanged (no local subdirectory is ever recreated), every new remote
file sits directly under the destination and carries only the base
name of some discovered file (its subdirectory chain is discarded),
and the run preserves at-most-one-file-per-(name, parent): two
discovered files sharing a base name collide at the destination and
only one remote copy can exist. -/
theorem claim10_flat_destination (failOf : LocalFile → Bool)
    (guessOf : LocalFile → Option String) (ff : Bool) (bs c0 : Nat)
    (allFiles : List LocalFile) (exts : Option (List String)) (d : Drive)
    (t : String) (ht : t ≠ "") (out : RunOutput)
    (hout : out = upload_with_breaks failOf guessOf ff bs c0 true allFiles
      none (some t) exts d) :
    out.drive.folders = d.folders ∧
    (∀ rf ∈ out.drive.files, rf ∈ d.files ∨
      (rf.parent = t ∧
        ∃ f ∈ allFiles.filter (extKeep exts), rf.name = f.base)) ∧
    (List.Pairwise nameParentDistinct d.files →
      List.Pairwise nameParentDistinct out.drive.files) := by
  subst hout
  have htru : optTruthy (some t) = true := by
    simp [optTruthy, ht]
  have hres : resolveTarget ff none (some t) d = (some t, d, 0) :=
    resolveTarget_fid htru ff none d
  by_cases hfe : allFiles.filter (extKeep exts) = []
  · rw [upload_with_breaks_no_files failOf guessOf ff bs c0 allFiles none
      (some t) exts d hfe]
    exact ⟨rfl, fun rf hrf => Or.inl hrf, fun h => h⟩
  · have hrun := upload_with_breaks_run failOf guessOf ff bs c0 allFiles
      none (some t) exts d t d 0 hfe hres
    refine ⟨?_, ?_, ?_⟩
    · have hfo : (upload_with_breaks failOf guessOf ff bs c0 true allFiles
          none (some t) exts d).drive.folders =
          (uploadLoop failOf guessOf bs
            (allFiles.filter (extKeep exts)).length t
            (allFiles.filter (extKeep exts)) 0
            ⟨d, c0, 0, 0, []⟩).drive.folders := by rw [hrun]
      rw [hfo, uploadLoop_folders]
    · exact upload_with_breaks_parents failOf guessOf ff bs c0 allFiles
        none (some t) exts d t d 0 hfe hres
    · intro hpw
      have hfi : (upload_with_breaks failOf guessOf ff bs c0 true allFiles
          none (some t) exts d).drive.files =
          (uploadLoop failOf guessOf bs
            (allFiles.filter (extKeep exts)).length t
            (allFiles.filter (extKeep exts)) 0
            ⟨d, c0, 0, 0, []⟩).drive.files := by rw [hrun]
      rw [hfi]
      exact uploadLoop_pairwise failOf guessOf bs
        (allFiles.filter (extKeep exts)).length t
        (allFiles.filter (extKeep exts)) 0 ⟨d, c0, 0, 0, []⟩ hpw

/-- C10 witness: two files in different subdirectories sharing the
base name `x.bin`, uploaded into an empty Drive under destination
`T`. -/
theorem claim10_flat_destination_witness :
    ("T" ≠ "" ∧
      (upload_with_breaks (fun _ => false) (fun _ => none) false 10 0 true
        [⟨["suba"], "x.bin"⟩, ⟨["subb"], "x.bin"⟩] none (some "T") none
        ⟨[], [], 0⟩).drive.folders = (Drive.mk [] [] 0).folders ∧
      (List.Pairwise nameParentDistinct (Drive.mk [] [] 0).files →
        List.Pairwise nameParentDistinct
          (upload_with_breaks (fun _ => false) (fun _ => none) false 10 0
            true [⟨["suba"], "x.bin"⟩, ⟨["subb"], "x.bin"⟩] none (some "T")
            none ⟨[], [], 0⟩).drive.files)) ∧
    (upload_with_breaks (fun _ => false) (fun _ => none) false 10 0 true
        [⟨["suba"], "x.bin"⟩, ⟨["subb"], "x.bin"⟩] none (some "T") none
        ⟨[], [], 0⟩).drive.files.map RFile.name = ["x.bin"] := by
  have h := claim10_flat_destination (fun _ => false) (fun _ => none) false
    10 0 [⟨["suba"], "x.bin"⟩, ⟨["subb"], "x.bin"⟩] none ⟨[], [], 0⟩ "T"
    (by decide) _ rfl
  exact ⟨⟨by decide, h.1, h.2.2⟩, by decide⟩

/-- C3: idempotence.  Running `upload_with_breaks` a second time over
the same local directory against the same destination (same name/id
arguments, on the same bot, against the Drive state left by a first
exception-free run) creates zero new remote files: the remote file
list is unchanged and every attempt of the second run is recognized as
already present by name and skipped without transferring bytes. -/
theorem claim3_idempotent (guessOf : LocalFile → Option String)
    (bs1 bs2 c0 : Nat) (allFiles : List LocalFile) (nm fid : Option String)
    (exts : Option (List String)) (d : Drive) (out1 out2 : RunOutput)
    (h1 : out1 = upload_with_breaks (fun _ => false) guessOf false bs1 c0
      true allFiles nm fid exts d)
    (h2 : out2 = upload_with_breaks (fun _ => false) guessOf false bs2
      out1.uploadedCount true allFiles nm fid exts out1.drive) :
    out2.drive.files = out1.drive.files ∧
    ∀ a ∈ out2.trace, a.transferred = false := by
  subst h2
  subst h1
  by_cases hfe : allFiles.filter (extKeep exts) = []
  · rw [upload_with_breaks_no_files (fun _ => false) guessOf false bs1 c0
      allFiles nm fid exts d hfe]
    rw [upload_with_breaks_no_files (fun _ => false) guessOf false bs2 _
      allFiles nm fid exts _ hfe]
    exact ⟨rfl, fun a ha => absurd ha (List.not_mem_nil a)⟩
  · obtain ⟨t, d1, k, hres⟩ := resolveTarget_false_some nm fid d
    have hrun1 := upload_with_breaks_run (fun _ => false) guessOf false bs1
      c0 allFiles nm fid exts d t d1 k hfe hres
    have hd1 : (upload_with_breaks (fun _ => false) guessOf false bs1 c0
        true allFiles nm fid exts d).drive =
        (uploadLoop (fun _ => false) guessOf bs1
          (allFiles.filter (extKeep exts)).length t
          (allFiles.filter (extKeep exts)) 0 ⟨d1, c0, 0, 0, []⟩).drive := by
      rw [hrun1]
    have hfold : (uploadLoop (fun _ => false) guessOf bs1
        (allFiles.filter (extKeep exts)).length t
        (allFiles.filter (extKeep exts)) 0
        ⟨d1, c0, 0, 0, []⟩).drive.folders = d1.folders :=
      uploadLoop_folders (fun _ => false) guessOf bs1
        (allFiles.filter (extKeep exts)).length t
        (allFiles.filter (extKeep exts)) 0 ⟨d1, c0, 0, 0, []⟩
    have hres2 : resolveTarget false nm fid
        ((upload_with_breaks (fun _ => false) guessOf false bs1 c0 true
          allFiles nm fid exts d).drive) =
        (some t, (upload_with_breaks (fun _ => false) guessOf false bs1 c0
          true allFiles nm fid exts d).drive, 0) := by
      rw [hd1]
      exact resolveTarget_stable nm fid d _ t d1 k hres hfold
    have hrun2 := upload_with_breaks_run (fun _ => false) guessOf false bs2
      ((upload_with_breaks (fun _ => false) guessOf false bs1 c0 true
        allFiles nm fid exts d).uploadedCount) allFiles nm fid exts
      ((upload_with_breaks (fun _ => false) guessOf false bs1 c0 true
        allFiles nm fid exts d).drive) t
      ((upload_with_breaks (fun _ => false) guessOf false bs1 c0 true
        allFiles nm fid exts d).drive) 0 hfe hres2
    have hcov : ∀ f ∈ allFiles.filter (extKeep exts),
        findFilesIn ((upload_with_breaks (fun _ => false) guessOf false bs1
          c0 true allFiles nm fid exts d).drive) f.base t ≠ [] := by
      intro f hf
      rw [hd1]
      exact uploadLoop_covers guessOf bs1
        (allFiles.filter (extKeep exts)).length t
        (allFiles.filter (extKeep exts)) 0 ⟨d1, c0, 0, 0, []⟩ f hf
    obtain ⟨hdr2, htr2⟩ := uploadLoop_skips guessOf bs2
      (allFiles.filter (extKeep exts)).length t
      (allFiles.filter (extKeep exts)) 0
      ⟨(upload_with_breaks (fun _ => false) guessOf false bs1 c0 true
          allFiles nm fid exts d).drive,
        (upload_with_breaks (fun _ => false) guessOf false bs1 c0 true
          allFiles nm fid exts d).uploadedCount, 0, 0, []⟩ hcov
    constructor
    · have h2d : (upload_with_breaks (fun _ => false) guessOf false bs2
          ((upload_with_breaks (fun _ => false) guessOf false bs1 c0 true
            allFiles nm fid exts d).uploadedCount) true allFiles nm fid exts
          ((upload_with_breaks (fun _ => false) guessOf false bs1 c0 true
            allFiles nm fid exts d).drive)).drive =
          (uploadLoop (fun _ => false) guessOf bs2
            (allFiles.filter (extKeep exts)).length t
            (allFiles.filter (extKeep exts)) 0
            ⟨(upload_with_breaks (fun _ => false) guessOf false bs1 c0 true
                allFiles nm fid exts d).drive,
              (upload_with_breaks (fun _ => false) guessOf false bs1 c0 true
                allFiles nm fid exts d).uploadedCount, 0, 0, []⟩).drive := by
        rw [hrun2]
      rw [h2d, hdr2]
    · intro a ha
      have h2t : (upload_with_breaks (fun _ => false) guessOf false bs2
          ((upload_with_breaks (fun _ => false) guessOf false bs1 c0 true
            allFiles nm fid exts d).uploadedCount) true allFiles nm fid exts
          ((upload_with_breaks (fun _ => false) guessOf false bs1 c0 true
            allFiles nm fid exts d).drive)).trace =
          (uploadLoop (fun _ => false) guessOf bs2
            (allFiles.filter (extKeep exts)).length t
            (allFiles.filter (extKeep exts)) 0
            ⟨(upload_with_breaks (fun _ => false) guessOf false bs1 c0 true
                allFiles nm fid exts d).drive,
              (upload_with_breaks (fun _ => false) guessOf false bs1 c0 true
                allFiles nm fid exts d).uploadedCount, 0, 0, []⟩).trace := by
        rw [hrun2]
      rw [h2t] at ha
      rcases htr2 a ha with hin | hf
      · exact absurd hin (List.not_mem_nil a)
      · exact hf

/-- C3 witness: run the two-file upload of the C1 witness twice; the
second run transfers nothing. -/
theorem claim3_idempotent_witness :
    (upload_with_breaks (fun _ => false) (fun _ => none) false 10
        (upload_with_breaks (fun _ => false) (fun _ => none) false 10 0 true
          [⟨[], "a.txt"⟩, ⟨["s"], "b.bin"⟩] (some "uploads") none none
          ⟨[], [], 0⟩).uploadedCount true
        [⟨[], "a.txt"⟩, ⟨["s"], "b.bin"⟩] (some "uploads") none none
        (upload_with_breaks (fun _ => false) (fun _ => none) false 10 0 true
          [⟨[], "a.txt"⟩, ⟨["s"], "b.bin"⟩] (some "uploads") none none
          ⟨[], [], 0⟩).drive).drive.files =
      (upload_with_breaks (fun _ => false) (fun _ => none) false 10 0 true
        [⟨[], "a.txt"⟩, ⟨["s"], "b.bin"⟩] (some "uploads") none none
        ⟨[], [], 0⟩).drive.files ∧
    ∀ a ∈ (upload_with_breaks (fun _ => false) (fun _ => none) false 10
        (upload_with_breaks (fun _ => false) (fun _ => none) false 10 0 true
          [⟨[], "a.txt"⟩, ⟨["s"], "b.bin"⟩] (some "uploads") none none
          ⟨[], [], 0⟩).uploadedCount true
        [⟨[], "a.txt"⟩, ⟨["s"], "b.bin"⟩] (some "uploads") none none
        (upload_with_breaks (fun _ => false) (fun _ => none) false 10 0 true
          [⟨[], "a.txt"⟩, ⟨["s"], "b.bin"⟩] (some "uploads") none none
          ⟨[], [], 0⟩).drive).trace,
      a.transferred = false :=
  claim3_idempotent (fun _ => none) 10 10 0
    [⟨[], "a.txt"⟩, ⟨["s"], "b.bin"⟩] (some "uploads") none none
    ⟨[], [], 0⟩ _ _ rfl rfl

end UploadBot
